import Mathlib

/-!
Verification development for a force-directed graph editor frontend.

The definitions below are a shallow embedding of the TypeScript sources:
* `src/types/constants.ts` (physics constants and the `GraphCanvas` component),
* `src/api/apiClient.ts` (the debounce utility and the debounced position update),
* the `GraphView` container component (data conversion, selection, deletion).

Numbers are embedded as `ℚ` (JavaScript numbers, with floating point ignored);
optional runtime fields (`fx`, `fy`, `vx`, `vy`, positions not yet assigned)
are embedded as `Option ℚ`.  Stateful React handlers become explicit state
transition functions.
-/

/-- A simulation-side node (`ForceGraphNode` in `src/types/graph.d.ts`):
`x`, `y`, `vx`, `vy` are owned by the d3 simulation at runtime and may be
unset before the node is first registered; `fx`, `fy` are the optional pin. -/
structure ForceGraphNode where
  id : String
  label : String
  type : String
  x : Option ℚ
  y : Option ℚ
  vx : Option ℚ
  vy : Option ℚ
  fx : Option ℚ
  fy : Option ℚ
  deriving Repr, DecidableEq

/-- A backend node (`GraphNode` in `src/types/graph.d.ts`): `x`, `y` are
required numbers, `_id` is the optional Mongo-style identifier (embedded as
the field `mId`). -/
structure GraphNode where
  id : String
  mId : Option String
  label : String
  type : String
  x : ℚ
  y : ℚ
  fx : Option ℚ
  fy : Option ℚ
  deriving Repr, DecidableEq

/-- A backend edge (`GraphEdge`): endpoints are node ids. -/
structure GraphEdge where
  id : String
  mId : Option String
  source : String
  target : String
  label : String
  directed : Bool
  deriving Repr, DecidableEq

/-- A simulation-side edge (`ForceGraphEdge`): endpoints are resolved to
live node records. -/
structure ForceGraphEdge where
  id : String
  source : ForceGraphNode
  target : ForceGraphNode
  label : String
  directed : Bool
  deriving Repr, DecidableEq

/-- The backend snapshot (`GraphData`). -/
structure GraphData where
  nodes : List GraphNode
  edges : List GraphEdge
  deriving Repr, DecidableEq

/-- The converted render/simulation set (`ForceGraphData`). -/
structure ForceGraphData where
  nodes : List ForceGraphNode
  links : List ForceGraphEdge
  deriving Repr, DecidableEq

/-- JavaScript `a || b` on an optional string: `undefined` and the empty
string are falsy. -/
def jsStrOr (a : Option String) (b : String) : String :=
  match a with
  | some s => if s = "" then b else s
  | none => b

/-- JavaScript `a || b` on an optional number: `undefined` and `0` are falsy. -/
def jsNumOr (a : Option ℚ) (b : ℚ) : ℚ :=
  match a with
  | some v => if v = 0 then b else v
  | none => b

/-- The normalized id a node is registered under: `node._id || node.id`. -/
def normId (n : GraphNode) : String :=
  jsStrOr n.mId n.id

/-- `GraphView.convertToForceGraphData`, node part: spread the node and
normalize its id (`{...node, id: node._id || node.id}`). -/
def convertNode (n : GraphNode) : ForceGraphNode :=
  { id := normId n
    label := n.label
    type := n.type
    x := some n.x
    y := some n.y
    vx := none
    vy := none
    fx := n.fx
    fy := n.fy }

/-- Lookup in the `nodeMap` built by `convertToForceGraphData`
(`Map.set` during the node pass: a later node with the same normalized id
overwrites an earlier one, so lookup returns the last match). -/
def nodeMapGet (nodes : List GraphNode) (key : String) : Option ForceGraphNode :=
  ((nodes.map convertNode).reverse).find? (fun fn => fn.id == key)

/-- `GraphView.convertToForceGraphData`, edge part for one edge: resolve both
endpoints in the node map; an unresolved endpoint yields `none` (the edge is
dropped). -/
def resolveEdge (nodes : List GraphNode) (e : GraphEdge) : Option ForceGraphEdge :=
  match nodeMapGet nodes e.source, nodeMapGet nodes e.target with
  | some sourceNode, some targetNode =>
      some { id := jsStrOr e.mId e.id
             source := sourceNode
             target := targetNode
             label := e.label
             directed := e.directed }
  | _, _ => none

/-- The `console.warn` message emitted when an edge endpoint is missing. -/
def edgeWarning (e : GraphEdge) : String :=
  "Edge references non-existent node: " ++ e.source ++ " -> " ++ e.target

/-- The edge pass of `convertToForceGraphData`: `.map` producing `null` plus a
warning for unresolvable edges, then `.filter(link => link !== null)`.
Returns the kept links and the logged warnings, in source order. -/
def convertEdges (nodes : List GraphNode) (edges : List GraphEdge) :
    List ForceGraphEdge × List String :=
  match edges with
  | [] => ([], [])
  | e :: rest =>
    let tail := convertEdges nodes rest
    match resolveEdge nodes e with
    | some link => (link :: tail.1, tail.2)
    | none => (tail.1, edgeWarning e :: tail.2)

/-- `GraphView.convertToForceGraphData`: converts a backend snapshot to the
render/simulation set, returning the data together with the logged warnings. -/
def convertToForceGraphData (data : GraphData) : ForceGraphData × List String :=
  let converted := convertEdges data.nodes data.edges
  ({ nodes := data.nodes.map convertNode, links := converted.1 }, converted.2)

/-- The carry-forward step of the `GraphCanvas` data-update effect: for each
node of the new snapshot, if a node with the same id exists among the current
simulation nodes, copy `x`, `y`, `vx || 0`, `vy || 0`, `fx`, `fy` from it. -/
def reconcileNode (existingNodes : List ForceGraphNode) (newNode : ForceGraphNode) :
    ForceGraphNode :=
  match existingNodes.find? (fun n => n.id == newNode.id) with
  | some existingNode =>
    { newNode with
        x := existingNode.x
        y := existingNode.y
        vx := some (jsNumOr existingNode.vx 0)
        vy := some (jsNumOr existingNode.vy 0)
        fx := existingNode.fx
        fy := existingNode.fy }
  | none => newNode

/-- The whole carry-forward pass (`newNodes.forEach(...)` in the data-update
effect), applied before `simulation.nodes(newNodes)`. -/
def reconcileNodes (existingNodes newNodes : List ForceGraphNode) : List ForceGraphNode :=
  newNodes.map (reconcileNode existingNodes)

-- `PHYSICS_CONFIG` from `src/types/constants.ts`.
namespace PHYSICS_CONFIG

def CHARGE_STRENGTH : ℚ := -400

def LINK_DISTANCE : ℚ := 100

def COLLISION_RADIUS : ℚ := 25

def ALPHA_DECAY : ℚ := 15 / 1000

def VELOCITY_DECAY : ℚ := 4 / 10

def ALPHA_TARGET : ℚ := 5 / 100

def REHEAT_STRENGTH : ℚ := 2 / 10

end PHYSICS_CONFIG

/-- A d3 zoom transform `{k, x, y}`: screen = k · world + (x, y). -/
structure ZoomTransform where
  k : ℚ
  x : ℚ
  y : ℚ
  deriving Repr, DecidableEq

/-- `d3.zoomIdentity`. -/
def zoomIdentity : ZoomTransform := { k := 1, x := 0, y := 0 }

/-- `transform.translate(tx, ty)` (d3 semantics: translation is scaled by the
current `k`). -/
def ZoomTransform.translate (t : ZoomTransform) (tx ty : ℚ) : ZoomTransform :=
  { k := t.k, x := t.x + t.k * tx, y := t.y + t.k * ty }

/-- `transform.scale(s)` (d3 semantics: multiplies `k`, keeps `x`, `y`). -/
def ZoomTransform.scale (t : ZoomTransform) (s : ℚ) : ZoomTransform :=
  { k := t.k * s, x := t.x, y := t.y }

/-- The canvas dimensions state of `GraphCanvas`. -/
structure Dimensions where
  width : ℚ
  height : ℚ
  deriving Repr, DecidableEq

/-- The `getBBox()` result used by `fitToScreen`. -/
structure BBox where
  x : ℚ
  y : ℚ
  width : ℚ
  height : ℚ
  deriving Repr, DecidableEq

/-- The `scaleExtent([0.1, 5])` configured on the d3 zoom behavior
(it constrains wheel/gesture zooming only; `zoom.transform` applies a
programmatic transform as given). -/
def SCALE_EXTENT : ℚ × ℚ := (1 / 10, 5)

/-- `GraphCanvas.fitToScreen`: from the rendered bounding box, compute
`scale = min(w / bw, h / bh) * 0.8` and a translate putting the bbox
center at the viewport center, and apply it as
`zoomIdentity.translate(tx, ty).scale(scale)`.  When the bbox is degenerate
(zero width or height) nothing is applied. -/
def fitToScreenTransform (dims : Dimensions) (bounds : BBox) : Option ZoomTransform :=
  if 0 < bounds.width ∧ 0 < bounds.height then
    let widthScale := dims.width / bounds.width
    let heightScale := dims.height / bounds.height
    let scale := min widthScale heightScale * (8 / 10)
    let translate0 := dims.width / 2 - scale * (bounds.x + bounds.width / 2)
    let translate1 := dims.height / 2 - scale * (bounds.y + bounds.height / 2)
    some ((zoomIdentity.translate translate0 translate1).scale scale)
  else
    none

/-- `emptyFitFunction`, installed when the snapshot has no nodes: applies
`zoomIdentity.translate(width / 2, height / 2).scale(1)` regardless of the
current transform. -/
def emptyFitFunction (dims : Dimensions) (current : ZoomTransform) : ZoomTransform :=
  let _ := current
  (zoomIdentity.translate (dims.width / 2) (dims.height / 2)).scale 1

/-- `emptyCenterFunction`, installed when the snapshot has no nodes: a no-op. -/
def emptyCenterFunction (current : ZoomTransform) (nodeId : String) : ZoomTransform :=
  let _ := nodeId
  current

/-- The simulation state visible to the drag handlers. -/
structure SimState where
  alpha : ℚ
  alphaTarget : ℚ
  running : Bool
  deriving Repr, DecidableEq

/-- The d3 drag `start` handler: when no other gesture is active, raise
`alphaTarget` to `0.3` and restart; pin the node at its current position
(`d.fx = d.x; d.fy = d.y`). -/
def dragStartHandler (eventActive : Bool) (sim : SimState) (d : ForceGraphNode) :
    SimState × ForceGraphNode :=
  ( if eventActive then sim
    else { sim with alphaTarget := 3 / 10, running := true },
    { d with fx := d.x, fy := d.y } )

/-- The d3 drag `drag` handler: `d.fx = event.x; d.fy = event.y` (pointer
world coordinates). -/
def dragMoveHandler (d : ForceGraphNode) (eventX eventY : ℚ) : ForceGraphNode :=
  { d with fx := some eventX, fy := some eventY }

/-- The d3 drag `end` handler: when no other gesture is active, restore
`alphaTarget` to the configured value; keep the node pinned at its final
position (`d.fx = d.x; d.fy = d.y` — the pin is never cleared). -/
def dragEndHandler (eventActive : Bool) (sim : SimState) (d : ForceGraphNode) :
    SimState × ForceGraphNode :=
  ( if eventActive then sim
    else { sim with alphaTarget := PHYSICS_CONFIG.ALPHA_TARGET },
    { d with fx := d.x, fy := d.y } )

/-- A sequence of pointer-move events applied to the dragged node. -/
def applyDragMoves (d : ForceGraphNode) (moves : List (ℚ × ℚ)) : ForceGraphNode :=
  moves.foldl (fun n m => dragMoveHandler n m.1 m.2) d

/-- Modelled from the spec: the d3-force tick behavior for a pinned node
(the d3 library itself is not part of this repository).  Per the spec,
"Node pin (fx/fy set) forces that node's position every tick"; a tick never
writes `fx`/`fy`.  The free (unpinned) force integration is not needed by any
claim and is left as the identity here. -/
def tickPinned (d : ForceGraphNode) : ForceGraphNode :=
  match d.fx, d.fy with
  | some px, some py => { d with x := some px, y := some py, vx := some 0, vy := some 0 }
  | _, _ => d

/-- Events that can touch a node after a drag ends: simulation ticks and
snapshot reconciliations in which the node is present again (same id). -/
inductive PostDragOp where
  | tick : PostDragOp
  | reconcile (fresh : ForceGraphNode) : PostDragOp
  deriving Repr

/-- Apply one post-drag event to the node: a tick enforces the pin; a snapshot
reconciliation runs the carry-forward pass with the node as the existing
simulation node and a fresh record carrying the same id. -/
def applyPostDragOp (d : ForceGraphNode) : PostDragOp → ForceGraphNode
  | PostDragOp.tick => tickPinned d
  | PostDragOp.reconcile fresh => reconcileNode [d] { fresh with id := d.id }

/-- Apply a whole sequence of post-drag events. -/
def applyPostDragOps (d : ForceGraphNode) (ops : List PostDragOp) : ForceGraphNode :=
  ops.foldl applyPostDragOp d

/-- One entry of the context menu's connected-nodes list. -/
structure ConnInfo where
  node : ForceGraphNode
  edgeId : String
  isSource : Bool
  deriving Repr, DecidableEq

/-- `GraphCanvas.getConnectedNodesInfo`: walk the links; an edge out of the
source node contributes its target (direction `isSource = true`), an edge into
the source node contributes its source (`isSource = false`); the contributed
endpoint is looked up in `data.nodes` and skipped when absent. -/
def getConnectedNodesInfo (nodes : List ForceGraphNode) (links : List ForceGraphEdge)
    (sourceNodeId : String) : List ConnInfo :=
  match links with
  | [] => []
  | link :: rest =>
    (if link.source.id = sourceNodeId then
       match nodes.find? (fun n => n.id == link.target.id) with
       | some targetNode => [ConnInfo.mk targetNode link.id true]
       | none => []
     else if link.target.id = sourceNodeId then
       match nodes.find? (fun n => n.id == link.source.id) with
       | some sourceNode => [ConnInfo.mk sourceNode link.id false]
       | none => []
     else []) ++ getConnectedNodesInfo nodes rest sourceNodeId

/-- The `connectedNodeIds` set built by `GraphCanvas.getUnconnectedNodes`
(embedded as the list of ids added, in order; membership is what matters). -/
def connectedNodeIds (links : List ForceGraphEdge) (sourceNodeId : String) : List String :=
  match links with
  | [] => []
  | link :: rest =>
    (if link.source.id = sourceNodeId then [link.target.id]
     else if link.target.id = sourceNodeId then [link.source.id]
     else []) ++ connectedNodeIds rest sourceNodeId

/-- `GraphCanvas.getUnconnectedNodes`: the nodes other than the source node
whose id was not collected in `connectedNodeIds`. -/
def getUnconnectedNodes (nodes : List ForceGraphNode) (links : List ForceGraphEdge)
    (sourceNodeId : String) : List ForceGraphNode :=
  nodes.filter (fun node =>
    node.id != sourceNodeId && !((connectedNodeIds links sourceNodeId).contains node.id))

/-- A per-link description of a connected-list entry, stated independently of
the traversal: used to characterize `getConnectedNodesInfo`. -/
def connEntry (nodes : List ForceGraphNode) (sourceNodeId : String)
    (link : ForceGraphEdge) : Option ConnInfo :=
  if link.source.id = sourceNodeId then
    (nodes.find? (fun n => n.id == link.target.id)).map
      (fun targetNode => ConnInfo.mk targetNode link.id true)
  else if link.target.id = sourceNodeId then
    (nodes.find? (fun n => n.id == link.source.id)).map
      (fun sourceNode => ConnInfo.mk sourceNode link.id false)
  else none

/-- The `contextMenu` state of `GraphCanvas` (`show` in the source is `visible`
here: `show` is a Lean keyword). -/
structure ContextMenuState where
  visible : Bool
  x : ℚ
  y : ℚ
  sourceNode : Option ForceGraphNode
  targetNode : Option ForceGraphNode
  deriving Repr, DecidableEq

/-- `GraphCanvas.handleCreateEdgeFromContext`: emit
`onCreateEdge(sourceId, targetId)` only when a source node is set and the
clicked target differs from it, then close the menu in every case.
Returns the emitted event payload (if any) and the new menu state. -/
def handleCreateEdgeFromContext (menu : ContextMenuState) (targetNode : ForceGraphNode) :
    Option (String × String) × ContextMenuState :=
  ( match menu.sourceNode with
    | some sourceNode =>
        if targetNode.id ≠ sourceNode.id then some (sourceNode.id, targetNode.id)
        else none
    | none => none,
    { menu with visible := false } )

/-- The payload of one call to the debounced position update:
node id and the x, y to persist. -/
def PosCall : Type := String × ℚ × ℚ

instance : Repr PosCall := inferInstanceAs (Repr (String × ℚ × ℚ))

instance : DecidableEq PosCall := inferInstanceAs (DecidableEq (String × ℚ × ℚ))

/-- The debounce window of `debouncedUpdateNodePosition` (ms).  The event
timeline is embedded with integer millisecond timestamps. -/
def DEBOUNCE_DELAY : ℤ := 500

/-- The event-loop semantics of `debounce` in `src/api/apiClient.ts`: one
shared `timeoutId`; each call clears the pending timer and schedules the
function with the latest arguments `delay` ms later.  Given the pending timer
(deadline and captured arguments), the remaining timed calls in increasing
time order, and the end of observation, returns the outbound updates that
fire, as (fire time, payload) pairs. -/
def runDebounce (delay : ℤ) (pending : Option (ℤ × PosCall)) (calls : List (ℤ × PosCall))
    (tEnd : ℤ) : List (ℤ × PosCall) :=
  match calls with
  | [] =>
    match pending with
    | some fire => if fire.1 ≤ tEnd then [fire] else []
    | none => []
  | (t, c) :: rest =>
    match pending with
    | some fire =>
      if fire.1 ≤ t then fire :: runDebounce delay (some (t + delay, c)) rest tEnd
      else runDebounce delay (some (t + delay, c)) rest tEnd
    | none => runDebounce delay (some (t + delay, c)) rest tEnd

/-- A burst: strictly increasing call times with consecutive gaps below the
debounce window. -/
def isBurst : List (ℤ × PosCall) → Bool
  | [] => true
  | a :: rest =>
    match rest with
    | [] => true
    | b :: _ => (a.1 < b.1 && b.1 - a.1 < DEBOUNCE_DELAY) && isBurst rest

/-- The last element of a nonempty list given as head and tail. -/
def lastCall {α : Type} (c : α) : List α → α
  | [] => c
  | d :: rest => lastCall d rest

/-- Selection kind of `SelectedItem`. -/
inductive SelKind where
  | node : SelKind
  | edge : SelKind
  deriving Repr, DecidableEq

/-- The `selectedItem` state of `GraphView` (the selected item, by kind and id). -/
structure SelectedItem where
  kind : SelKind
  itemId : String
  deriving Repr, DecidableEq

/-- The selection-relevant state of the `GraphView` container. -/
structure GraphViewState where
  graphData : ForceGraphData
  selectedItem : Option SelectedItem
  isPropertiesPanelOpen : Bool
  deriving Repr, DecidableEq

/-- The user-visible events handled by `GraphView` that can touch the
selection.  A background click carries the node returned by the create-node
API call (`handleCreateNode` both creates and selects it). -/
inductive GraphViewEvent where
  | nodeClick (n : ForceGraphNode) : GraphViewEvent
  | edgeClick (e : ForceGraphEdge) : GraphViewEvent
  | backgroundClick (newNode : ForceGraphNode) : GraphViewEvent
  | deleteConfirm : GraphViewEvent
  | deleteEdgeFromContext (edgeId : String) : GraphViewEvent
  | closePanel : GraphViewEvent
  deriving Repr

/-- The `GraphView` selection/deletion handlers as one transition function:
`handleNodeClick`, `handleEdgeClick`, `handleCreateNode` (background click),
`handleDeleteItem`'s confirm action, `handleDeleteEdgeFromContext`,
`handleClosePropertiesPanel`. -/
def graphViewStep (s : GraphViewState) : GraphViewEvent → GraphViewState
  | GraphViewEvent.nodeClick n =>
    { s with selectedItem := some ⟨SelKind.node, n.id⟩, isPropertiesPanelOpen := true }
  | GraphViewEvent.edgeClick e =>
    { s with selectedItem := some ⟨SelKind.edge, e.id⟩, isPropertiesPanelOpen := true }
  | GraphViewEvent.backgroundClick newNode =>
    { graphData := { s.graphData with nodes := s.graphData.nodes ++ [newNode] }
      selectedItem := some ⟨SelKind.node, newNode.id⟩
      isPropertiesPanelOpen := true }
  | GraphViewEvent.deleteConfirm =>
    match s.selectedItem with
    | none => s
    | some sel =>
      match sel.kind with
      | SelKind.node =>
        { graphData :=
            { nodes := s.graphData.nodes.filter (fun node => node.id != sel.itemId)
              links := s.graphData.links.filter (fun link =>
                link.source.id != sel.itemId && link.target.id != sel.itemId) }
          selectedItem := none
          isPropertiesPanelOpen := false }
      | SelKind.edge =>
        { graphData :=
            { s.graphData with
                links := s.graphData.links.filter (fun link => link.id != sel.itemId) }
          selectedItem := none
          isPropertiesPanelOpen := false }
  | GraphViewEvent.deleteEdgeFromContext edgeId =>
    let gd := { s.graphData with
                  links := s.graphData.links.filter (fun link => link.id != edgeId) }
    match s.selectedItem with
    | some sel =>
      if sel.kind = SelKind.edge ∧ sel.itemId = edgeId then
        { graphData := gd, selectedItem := none, isPropertiesPanelOpen := false }
      else { s with graphData := gd }
    | none => { s with graphData := gd }
  | GraphViewEvent.closePanel =>
    { s with selectedItem := none, isPropertiesPanelOpen := false }

/-- Concrete simulation node used in example instantiations. -/
def sampleNodeA : ForceGraphNode :=
  { id := "a", label := "Node A", type := "default"
    x := some 5, y := some 6, vx := some 1, vy := some 2, fx := some 3, fy := some 4 }

/-- Concrete simulation node used in example instantiations. -/
def sampleNodeB : ForceGraphNode :=
  { id := "b", label := "Node B", type := "default"
    x := some 50, y := some 60, vx := none, vy := none, fx := none, fy := none }

/-- A fresh snapshot record for the same node id as `sampleNodeA`. -/
def sampleNodeA2 : ForceGraphNode :=
  { id := "a", label := "Node A renamed", type := "concept"
    x := some 100, y := some 200, vx := none, vy := none, fx := none, fy := none }

/-- A self-loop edge on `sampleNodeA`. -/
def sampleSelfLoop : ForceGraphEdge :=
  { id := "e1", source := sampleNodeA, target := sampleNodeA
    label := "loops", directed := true }

/-- A concrete state with node "a" selected, used as counterexample input. -/
def sampleSelState : GraphViewState :=
  { graphData := { nodes := [sampleNodeA], links := [] }
    selectedItem := some ⟨SelKind.node, "a"⟩
    isPropertiesPanelOpen := true }

/-- Claim C1: for every pair of consecutive snapshots and every node id present
in both, at the instant of reconciliation the new node record carries forward
x, y, vx, vy, fx and fy unchanged from the prior simulation node with that id
(no teleport).  The prior node is one found among the current simulation nodes;
its velocity components are numbers (the simulation initializes them), which
the hypotheses record. -/
theorem reconcile_carries_forward (existingNodes : List ForceGraphNode)
    (newNode existingNode : ForceGraphNode)
    (hfind : existingNodes.find? (fun n => n.id == newNode.id) = some existingNode)
    (v w : ℚ) (hvx : existingNode.vx = some v) (hvy : existingNode.vy = some w) :
    (reconcileNode existingNodes newNode).x = existingNode.x ∧
    (reconcileNode existingNodes newNode).y = existingNode.y ∧
    (reconcileNode existingNodes newNode).vx = existingNode.vx ∧
    (reconcileNode existingNodes newNode).vy = existingNode.vy ∧
    (reconcileNode existingNodes newNode).fx = existingNode.fx ∧
    (reconcileNode existingNodes newNode).fy = existingNode.fy := by
  unfold reconcileNode
  rw [hfind]
  refine ⟨rfl, rfl, ?_, ?_, rfl, rfl⟩
  · show some (jsNumOr existingNode.vx 0) = existingNode.vx
    rw [hvx]
    show some (if v = 0 then 0 else v) = some v
    by_cases h : v = 0
    · rw [if_pos h, h]
    · rw [if_neg h]
  · show some (jsNumOr existingNode.vy 0) = existingNode.vy
    rw [hvy]
    show some (if w = 0 then 0 else w) = some w
    by_cases h : w = 0
    · rw [if_pos h, h]
    · rw [if_neg h]

/-- Witness for C1: a concrete reconciliation of node id "a" across two
snapshots carries all six fields forward. -/
theorem reconcile_carries_forward_witness :
    (reconcileNode [sampleNodeA] sampleNodeA2).x = sampleNodeA.x ∧
    (reconcileNode [sampleNodeA] sampleNodeA2).y = sampleNodeA.y ∧
    (reconcileNode [sampleNodeA] sampleNodeA2).vx = sampleNodeA.vx ∧
    (reconcileNode [sampleNodeA] sampleNodeA2).vy = sampleNodeA.vy ∧
    (reconcileNode [sampleNodeA] sampleNodeA2).fx = sampleNodeA.fx ∧
    (reconcileNode [sampleNodeA] sampleNodeA2).fy = sampleNodeA.fy :=
  reconcile_carries_forward [sampleNodeA] sampleNodeA2 sampleNodeA (by decide) 1 2 rfl rfl

/-- Claim C2, counterexample: at viewport 800 × 600 and a rendered bounding box
of 100000 × 100000, `fitToScreen` computes scale 3/625 = 0.0048, strictly below
the configured minimum scale 0.1 — the claim that the scale always lies within
the scaleExtent [0.1, 5] is false. -/
theorem fitToScreen_scale_escapes_extent :
    ((fitToScreenTransform ⟨800, 600⟩ ⟨0, 0, 100000, 100000⟩).map ZoomTransform.k
      = some (3 / 625)) ∧ (3 / 625 : ℚ) < SCALE_EXTENT.1 := by
  constructor
  · norm_num [fitToScreenTransform, zoomIdentity, ZoomTransform.translate,
      ZoomTransform.scale, min_def]
  · norm_num [SCALE_EXTENT]

/-- Claim C2, amended: for every bounding box with positive width and height
(and positive viewport), `fitToScreen` produces a transform whose scale is
exactly min(viewportWidth / bboxWidth, viewportHeight / bboxHeight) × 0.8;
the scale is positive but is not clamped to the scaleExtent [0.1, 5] and can
fall outside it. -/
theorem fitToScreen_scale_formula (dims : Dimensions) (bounds : BBox)
    (hw : 0 < bounds.width) (hh : 0 < bounds.height)
    (hdw : 0 < dims.width) (hdh : 0 < dims.height) :
    ∃ t, fitToScreenTransform dims bounds = some t ∧
      t.k = min (dims.width / bounds.width) (dims.height / bounds.height) * (8 / 10) ∧
      0 < t.k := by
  unfold fitToScreenTransform
  rw [if_pos ⟨hw, hh⟩]
  refine ⟨_, rfl, ?_, ?_⟩
  · simp [zoomIdentity, ZoomTransform.translate, ZoomTransform.scale]
  · simp only [zoomIdentity, ZoomTransform.translate, ZoomTransform.scale, one_mul]
    have h1 : 0 < dims.width / bounds.width := div_pos hdw hw
    have h2 : 0 < dims.height / bounds.height := div_pos hdh hh
    have h3 : 0 < min (dims.width / bounds.width) (dims.height / bounds.height) :=
      lt_min h1 h2
    positivity

/-- Witness for the amended C2: a concrete 400 × 300 bounding box in an
800 × 600 viewport. -/
theorem fitToScreen_scale_formula_witness :
    ∃ t, fitToScreenTransform ⟨800, 600⟩ ⟨0, 0, 400, 300⟩ = some t ∧
      t.k = min ((800 : ℚ) / 400) ((600 : ℚ) / 300) * (8 / 10) ∧ 0 < t.k :=
  fitToScreen_scale_formula ⟨800, 600⟩ ⟨0, 0, 400, 300⟩
    (by norm_num) (by norm_num) (by norm_num) (by norm_num)

/-- Claim C7, counterexample: with an empty snapshot, the installed
fit-to-screen function is not a no-op on the view transform — at viewport
800 × 600 and current transform (k = 1, x = 0, y = 0) it resets the transform
to (k = 1, x = 400, y = 300). -/
theorem emptyFit_changes_transform :
    emptyFitFunction ⟨800, 600⟩ ⟨1, 0, 0⟩ = ⟨1, 400, 300⟩ ∧
    emptyFitFunction ⟨800, 600⟩ ⟨1, 0, 0⟩ ≠ ⟨1, 0, 0⟩ := by
  constructor
  · norm_num [emptyFitFunction, zoomIdentity, ZoomTransform.translate, ZoomTransform.scale]
  · norm_num [emptyFitFunction, zoomIdentity, ZoomTransform.translate, ZoomTransform.scale]

/-- Claim C7, amended: with an empty snapshot (`nodes: []`), invoking
fitToScreen does not throw and resets the view transform to translate
(width / 2, height / 2) with scale 1 (so it changes the transform whenever the
view is not already there), and every centerOnNode call is a no-op. -/
theorem empty_snapshot_camera_ops (dims : Dimensions) (t : ZoomTransform)
    (nodeId : String) :
    emptyCenterFunction t nodeId = t ∧
    emptyFitFunction dims t = { k := 1, x := dims.width / 2, y := dims.height / 2 } := by
  constructor
  · rfl
  · simp [emptyFitFunction, zoomIdentity, ZoomTransform.translate, ZoomTransform.scale]

/-- Claim C10: a context-menu edge-creation click emits `onCreateEdge` only
when the clicked target node differs from the context-menu source node; with
equal ids the menu closes without emitting, so `onCreateEdge` is never raised
with sourceId equal to targetId. -/
theorem no_self_edge_from_context (menu : ContextMenuState) (t : ForceGraphNode) :
    (handleCreateEdgeFromContext menu t).2.visible = false ∧
    (∀ p, (handleCreateEdgeFromContext menu t).1 = some p →
       p.1 ≠ p.2 ∧ p.2 = t.id ∧ Option.map ForceGraphNode.id menu.sourceNode = some p.1) ∧
    (∀ s, menu.sourceNode = some s → t.id = s.id →
       (handleCreateEdgeFromContext menu t).1 = none) := by
  refine ⟨rfl, ?_, ?_⟩
  · intro p hp
    cases hms : menu.sourceNode with
    | none =>
      simp [handleCreateEdgeFromContext, hms] at hp
    | some s =>
      simp only [handleCreateEdgeFromContext, hms] at hp
      split at hp
      next h =>
        simp only [Option.some.injEq] at hp
        subst hp
        exact ⟨fun hc => h hc.symm, rfl, by simp [hms]⟩
      next h =>
        exact Option.noConfusion hp
  · intro s hs ht
    simp [handleCreateEdgeFromContext, hs, ht]

/-- Witness for C10: clicking the source node itself emits nothing and closes
the menu. -/
theorem no_self_edge_from_context_witness :
    (handleCreateEdgeFromContext ⟨true, 0, 0, some sampleNodeA, none⟩ sampleNodeA).1 = none ∧
    (handleCreateEdgeFromContext ⟨true, 0, 0, some sampleNodeA, none⟩ sampleNodeA).2.visible
      = false :=
  ⟨(no_self_edge_from_context ⟨true, 0, 0, some sampleNodeA, none⟩ sampleNodeA).2.2
      sampleNodeA rfl rfl,
   (no_self_edge_from_context ⟨true, 0, 0, some sampleNodeA, none⟩ sampleNodeA).1⟩

/-- A simulation tick never writes the pin: `tickPinned` preserves `fx`, `fy`. -/
lemma tickPinned_preserves_pin (d : ForceGraphNode) :
    (tickPinned d).fx = d.fx ∧ (tickPinned d).fy = d.fy := by
  unfold tickPinned
  cases hfx : d.fx <;> cases hfy : d.fy <;> simp [hfx, hfy]

/-- A reconciliation in which the node reappears under its own id carries the
pin forward unchanged. -/
lemma reconcileNode_self_preserves_pin (d fresh : ForceGraphNode) :
    (reconcileNode [d] { fresh with id := d.id }).fx = d.fx ∧
    (reconcileNode [d] { fresh with id := d.id }).fy = d.fy := by
  unfold reconcileNode
  have hf : List.find? (fun n => n.id == ({ fresh with id := d.id } : ForceGraphNode).id) [d]
      = some d := List.find?_cons_of_pos _ (by simp)
  rw [hf]
  exact ⟨rfl, rfl⟩

/-- One post-drag event preserves the pin. -/
lemma applyPostDragOp_preserves_pin (d : ForceGraphNode) (op : PostDragOp) :
    (applyPostDragOp d op).fx = d.fx ∧ (applyPostDragOp d op).fy = d.fy := by
  cases op with
  | tick => exact tickPinned_preserves_pin d
  | reconcile fresh => exact reconcileNode_self_preserves_pin d fresh

/-- Any sequence of post-drag events preserves the pin. -/
lemma applyPostDragOps_preserves_pin (ops : List PostDragOp) (d : ForceGraphNode) :
    (applyPostDragOps d ops).fx = d.fx ∧ (applyPostDragOps d ops).fy = d.fy := by
  induction ops generalizing d with
  | nil => exact ⟨rfl, rfl⟩
  | cons op rest ih =>
    have h1 := applyPostDragOp_preserves_pin d op
    have h2 := ih (applyPostDragOp d op)
    exact ⟨h2.1.trans h1.1, h2.2.trans h1.2⟩

/-- Claim C5: during a drag, after every pointer-move event the node's fx/fy
(and hence, through the tick's pin enforcement, its simulated position) equal
that event's world coordinates; on pointer-up fx/fy are set to the node's final
position and are preserved by every later tick and snapshot reconciliation in
which the node is present, while alphaTarget is restored to the configured
value. -/
theorem drag_gesture_pins_node (sim : SimState) (d : ForceGraphNode)
    (prior : List (ℚ × ℚ)) (m : ℚ × ℚ) (post : List PostDragOp) :
    let dMoved := applyDragMoves (dragStartHandler false sim d).2 (prior ++ [m])
    let simDuringDrag := (dragStartHandler false sim d).1
    let dEnd := (dragEndHandler false simDuringDrag dMoved).2
    let simEnd := (dragEndHandler false simDuringDrag dMoved).1
    dMoved.fx = some m.1 ∧ dMoved.fy = some m.2 ∧
    (tickPinned dMoved).x = some m.1 ∧ (tickPinned dMoved).y = some m.2 ∧
    dEnd.fx = dMoved.x ∧ dEnd.fy = dMoved.y ∧
    simEnd.alphaTarget = PHYSICS_CONFIG.ALPHA_TARGET ∧
    (applyPostDragOps dEnd post).fx = dEnd.fx ∧
    (applyPostDragOps dEnd post).fy = dEnd.fy := by
  intro dMoved simDuringDrag dEnd simEnd
  have hfx : dMoved.fx = some m.1 := by
    show (applyDragMoves (dragStartHandler false sim d).2 (prior ++ [m])).fx = some m.1
    unfold applyDragMoves
    rw [List.foldl_append]
    rfl
  have hfy : dMoved.fy = some m.2 := by
    show (applyDragMoves (dragStartHandler false sim d).2 (prior ++ [m])).fy = some m.2
    unfold applyDragMoves
    rw [List.foldl_append]
    rfl
  have htick : tickPinned dMoved = { dMoved with
      x := some m.1, y := some m.2, vx := some 0, vy := some 0 } := by
    unfold tickPinned
    rw [hfx, hfy]
  refine ⟨hfx, hfy, by rw [htick], by rw [htick], rfl, rfl, rfl, ?_, ?_⟩
  · exact (applyPostDragOps_preserves_pin post dEnd).1
  · exact (applyPostDragOps_preserves_pin post dEnd).2

/-- The traversal of `getConnectedNodesInfo` computes the per-link entries. -/
lemma getConnectedNodesInfo_eq_filterMap (nodes : List ForceGraphNode)
    (links : List ForceGraphEdge) (s : String) :
    getConnectedNodesInfo nodes links s = links.filterMap (connEntry nodes s) := by
  induction links with
  | nil => rfl
  | cons link rest ih =>
    simp only [getConnectedNodesInfo]
    rw [List.filterMap_cons, ih]
    by_cases h1 : link.source.id = s
    · have hc : connEntry nodes s link =
          (nodes.find? (fun n => n.id == link.target.id)).map
            (fun targetNode => ConnInfo.mk targetNode link.id true) := by
        unfold connEntry
        rw [if_pos h1]
      rw [hc, if_pos h1]
      cases hf : nodes.find? (fun n => n.id == link.target.id) <;> simp [hf]
    · have hc : connEntry nodes s link =
          (if link.target.id = s then
            (nodes.find? (fun n => n.id == link.source.id)).map
              (fun sourceNode => ConnInfo.mk sourceNode link.id false)
          else none) := by
        unfold connEntry
        rw [if_neg h1]
      rw [hc, if_neg h1]
      by_cases h2 : link.target.id = s
      · rw [if_pos h2, if_pos h2]
        cases hf : nodes.find? (fun n => n.id == link.source.id) <;> simp [hf]
      · rw [if_neg h2, if_neg h2]
        simp

/-- Membership in the `connectedNodeIds` set collected by
`getUnconnectedNodes`. -/
lemma mem_connectedNodeIds (links : List ForceGraphEdge) (s idv : String) :
    idv ∈ connectedNodeIds links s ↔
      ∃ link ∈ links,
        (link.source.id = s ∧ idv = link.target.id) ∨
        (¬ link.source.id = s ∧ link.target.id = s ∧ idv = link.source.id) := by
  induction links with
  | nil => simp [connectedNodeIds]
  | cons link rest ih =>
    unfold connectedNodeIds
    by_cases h1 : link.source.id = s
    · rw [if_pos h1]
      simp [ih, h1]
    · rw [if_neg h1]
      by_cases h2 : link.target.id = s
      · rw [if_pos h2]
        simp [ih, h1, h2]
      · rw [if_neg h2]
        simp [ih, h1, h2]

/-- For a node other than the context source, not being collected in
`connectedNodeIds` is the same as no incident edge connecting it to the
source. -/
lemma neighbor_clause_iff (link : ForceGraphEdge) (s nid : String) (hne : nid ≠ s) :
    ¬((link.source.id = s ∧ nid = link.target.id) ∨
      (¬ link.source.id = s ∧ link.target.id = s ∧ nid = link.source.id)) ↔
    (¬(link.source.id = s ∧ link.target.id = nid) ∧
     ¬(link.target.id = s ∧ link.source.id = nid)) := by
  constructor
  · intro h
    constructor
    · rintro ⟨ha, hb⟩
      exact h (Or.inl ⟨ha, hb.symm⟩)
    · rintro ⟨ha, hb⟩
      have hs : ¬ link.source.id = s := by rw [hb]; exact hne
      exact h (Or.inr ⟨hs, ha, hb.symm⟩)
  · rintro ⟨hA, hB⟩ (⟨ha, hb⟩ | ⟨ha, hb, hc⟩)
    · exact hA ⟨ha, hb.symm⟩
    · exact hB ⟨hb, hc.symm⟩

/-- Claim C6, counterexample: with the single node "a" and a single self-loop
edge on "a", the context menu for source "a" lists "a" itself in the connected
list (with that edge's id and direction `isSource = true`) — the claim that
the source node appears in neither list when a self-loop exists is false. -/
theorem self_loop_listed_connected :
    getConnectedNodesInfo [sampleNodeA] [sampleSelfLoop] "a"
      = [ConnInfo.mk sampleNodeA "e1" true] ∧
    (getConnectedNodesInfo [sampleNodeA] [sampleSelfLoop] "a").map
      (fun c => c.node.id) = ["a"] := by
  constructor <;> decide

/-- Claim C6, amended: the connected list is exactly the per-link entries —
for each edge out of s the node of the node set carrying the target's id
(direction `isSource = true`), for each other edge into s the node carrying
the source's id (`isSource = false`), skipping endpoints absent from the node
set; the unconnected list contains exactly the nodes other than s with no
edge connecting them to s; s itself never appears in the unconnected list,
but a self-loop on s lists s itself in the connected list. -/
theorem context_menu_partition (data : ForceGraphData) (s : String) :
    getConnectedNodesInfo data.nodes data.links s
      = data.links.filterMap (connEntry data.nodes s) ∧
    (∀ n, n ∈ getUnconnectedNodes data.nodes data.links s ↔
      (n ∈ data.nodes ∧ n.id ≠ s ∧
        ∀ link ∈ data.links,
          ¬(link.source.id = s ∧ link.target.id = n.id) ∧
          ¬(link.target.id = s ∧ link.source.id = n.id))) ∧
    (∀ n, n ∈ getUnconnectedNodes data.nodes data.links s → n.id ≠ s) := by
  have hmem : ∀ n, n ∈ getUnconnectedNodes data.nodes data.links s ↔
      (n ∈ data.nodes ∧ n.id ≠ s ∧
        ∀ link ∈ data.links,
          ¬(link.source.id = s ∧ link.target.id = n.id) ∧
          ¬(link.target.id = s ∧ link.source.id = n.id)) := by
    intro n
    unfold getUnconnectedNodes
    rw [List.mem_filter]
    constructor
    · rintro ⟨hmemN, hpred⟩
      rw [Bool.and_eq_true, bne_iff_ne, Bool.not_eq_true', ← Bool.not_eq_true,
        List.elem_iff] at hpred
      obtain ⟨hne, hcont⟩ := hpred
      rw [mem_connectedNodeIds] at hcont
      refine ⟨hmemN, hne, ?_⟩
      intro link hlink
      rw [← neighbor_clause_iff link s n.id hne]
      intro hP
      exact hcont ⟨link, hlink, hP⟩
    · rintro ⟨hmemN, hne, hall⟩
      refine ⟨hmemN, ?_⟩
      rw [Bool.and_eq_true, bne_iff_ne, Bool.not_eq_true', ← Bool.not_eq_true,
        List.elem_iff, mem_connectedNodeIds]
      refine ⟨hne, ?_⟩
      rintro ⟨link, hlink, hP⟩
      exact (neighbor_clause_iff link s n.id hne).mpr (hall link hlink) hP
  refine ⟨getConnectedNodesInfo_eq_filterMap _ _ _, hmem, ?_⟩
  intro n hn
  exact ((hmem n).mp hn).2.1

/-- The edge pass keeps exactly the resolvable edges and logs one warning per
dropped edge, in order. -/
lemma convertEdges_spec (nodes : List GraphNode) (edges : List GraphEdge) :
    (convertEdges nodes edges).1 = edges.filterMap (resolveEdge nodes) ∧
    (convertEdges nodes edges).2 =
      (edges.filter (fun e => (resolveEdge nodes e).isNone)).map edgeWarning := by
  induction edges with
  | nil => exact ⟨rfl, rfl⟩
  | cons e rest ih =>
    simp only [convertEdges]
    rw [List.filterMap_cons, List.filter_cons]
    cases hr : resolveEdge nodes e <;> simp [hr, ih.1, ih.2]

/-- Claim C3: every edge whose source or target id matches no registered node
id is dropped from the converted set with a logged warning; every edge whose
both endpoints resolve is kept; resolvability is exactly both endpoint ids
being registered node ids (and the conversion is a total function — nothing is
thrown). -/
theorem convert_drops_unresolved_edges (data : GraphData) :
    (convertToForceGraphData data).1.links
      = data.edges.filterMap (resolveEdge data.nodes) ∧
    (convertToForceGraphData data).2
      = (data.edges.filter (fun e => (resolveEdge data.nodes e).isNone)).map edgeWarning ∧
    (∀ e : GraphEdge, (resolveEdge data.nodes e).isSome = true ↔
      ((nodeMapGet data.nodes e.source).isSome = true ∧
       (nodeMapGet data.nodes e.target).isSome = true)) ∧
    (∀ key, (nodeMapGet data.nodes key).isSome = true ↔
      ∃ n ∈ data.nodes, normId n = key) := by
  refine ⟨(convertEdges_spec data.nodes data.edges).1,
    (convertEdges_spec data.nodes data.edges).2, ?_, ?_⟩
  · intro e
    cases hs : nodeMapGet data.nodes e.source <;>
      cases ht : nodeMapGet data.nodes e.target <;>
        simp [resolveEdge, hs, ht]
  · intro key
    unfold nodeMapGet
    rw [List.find?_isSome]
    constructor
    · rintro ⟨fn, hfn, hp⟩
      rw [List.mem_reverse, List.mem_map] at hfn
      obtain ⟨n, hn, rfl⟩ := hfn
      exact ⟨n, hn, by simpa [convertNode] using hp⟩
    · rintro ⟨n, hn, hkey⟩
      refine ⟨convertNode n, ?_, by simp [convertNode, hkey]⟩
      rw [List.mem_reverse, List.mem_map]
      exact ⟨n, hn, rfl⟩

/-- Unpack the burst condition at a cons. -/
lemma isBurst_tail (a b : ℤ × PosCall) (rest : List (ℤ × PosCall))
    (h : isBurst (a :: b :: rest) = true) :
    a.1 < b.1 ∧ b.1 - a.1 < DEBOUNCE_DELAY ∧ isBurst (b :: rest) = true := by
  simp only [isBurst, Bool.and_eq_true, decide_eq_true_eq] at h
  exact ⟨h.1.1, h.1.2, h.2⟩

/-- During a burst, the pending timer set by each call is always cancelled by
the next call, so once quiescence is reached only the last call's timer fires. -/
lemma runDebounce_pending_burst (rest : List (ℤ × PosCall)) (c : ℤ × PosCall) (tEnd : ℤ)
    (hb : isBurst (c :: rest) = true)
    (hend : (lastCall c rest).1 + DEBOUNCE_DELAY ≤ tEnd) :
    runDebounce DEBOUNCE_DELAY (some (c.1 + DEBOUNCE_DELAY, c.2)) rest tEnd
      = [((lastCall c rest).1 + DEBOUNCE_DELAY, (lastCall c rest).2)] := by
  induction rest generalizing c with
  | nil =>
    simp only [lastCall] at hend
    simp only [runDebounce, lastCall]
    rw [if_pos hend]
  | cons d rest ih =>
    obtain ⟨hlt, hgap, hb2⟩ := isBurst_tail c d rest hb
    have hlast : lastCall c (d :: rest) = lastCall d rest := rfl
    rw [hlast] at hend ⊢
    obtain ⟨td, pd⟩ := d
    have hnotfire : ¬ (c.1 + DEBOUNCE_DELAY ≤ td) := by
      simp only at hlt hgap
      linarith
    simp only [runDebounce]
    rw [if_neg hnotfire]
    exact ih (td, pd) hb2 hend

/-- Before quiescence is reached, nothing has fired. -/
lemma runDebounce_pending_burst_early (rest : List (ℤ × PosCall)) (c : ℤ × PosCall)
    (tEnd : ℤ) (hb : isBurst (c :: rest) = true)
    (hend : tEnd < (lastCall c rest).1 + DEBOUNCE_DELAY) :
    runDebounce DEBOUNCE_DELAY (some (c.1 + DEBOUNCE_DELAY, c.2)) rest tEnd = [] := by
  induction rest generalizing c with
  | nil =>
    simp only [lastCall] at hend
    simp only [runDebounce, lastCall]
    rw [if_neg (by linarith)]
  | cons d rest ih =>
    obtain ⟨hlt, hgap, hb2⟩ := isBurst_tail c d rest hb
    have hlast : lastCall c (d :: rest) = lastCall d rest := rfl
    rw [hlast] at hend
    obtain ⟨td, pd⟩ := d
    have hnotfire : ¬ (c.1 + DEBOUNCE_DELAY ≤ td) := by
      simp only at hlt hgap
      linarith
    simp only [runDebounce]
    rw [if_neg hnotfire]
    exact ih (td, pd) hb2 hend

/-- Claim C4: for every burst of N ≥ 1 calls to the debounced node-position
update in which consecutive calls are separated by less than the 500 ms
quiescence window, exactly one outbound update fires, carrying the payload
(node id, x, y) of the last call of the burst, at the last call's time plus
500 ms — and nothing at all has fired before that instant.  Earlier calls of
the burst (same node or different nodes — the timer is shared) produce no
outbound update. -/
theorem debounce_burst_single_fire (c : ℤ × PosCall) (rest : List (ℤ × PosCall))
    (tEnd : ℤ) (hb : isBurst (c :: rest) = true) :
    ((lastCall c rest).1 + DEBOUNCE_DELAY ≤ tEnd →
      runDebounce DEBOUNCE_DELAY none (c :: rest) tEnd
        = [((lastCall c rest).1 + DEBOUNCE_DELAY, (lastCall c rest).2)]) ∧
    (tEnd < (lastCall c rest).1 + DEBOUNCE_DELAY →
      runDebounce DEBOUNCE_DELAY none (c :: rest) tEnd = []) := by
  obtain ⟨t0, p0⟩ := c
  have hfirst : runDebounce DEBOUNCE_DELAY none ((t0, p0) :: rest) tEnd
      = runDebounce DEBOUNCE_DELAY (some (t0 + DEBOUNCE_DELAY, p0)) rest tEnd := rfl
  constructor
  · intro hend
    rw [hfirst]
    exact runDebounce_pending_burst rest (t0, p0) tEnd hb hend
  · intro hend
    rw [hfirst]
    exact runDebounce_pending_burst_early rest (t0, p0) tEnd hb hend

/-- Witness for C4: a concrete three-call burst (two nodes, gaps 200 ms)
fires exactly once, 500 ms after the last call, with the last call's payload. -/
theorem debounce_burst_single_fire_witness :
    isBurst [((0 : ℤ), ("n1", 10, 20)), (200, ("n2", 1, 2)), (400, ("n1", 30, 40))]
      = true ∧
    runDebounce DEBOUNCE_DELAY none
      [((0 : ℤ), ("n1", 10, 20)), (200, ("n2", 1, 2)), (400, ("n1", 30, 40))] 1000
      = [(900, ("n1", 30, 40))] ∧
    runDebounce DEBOUNCE_DELAY none
      [((0 : ℤ), ("n1", 10, 20)), (200, ("n2", 1, 2)), (400, ("n1", 30, 40))] 850
      = [] := by
  refine ⟨by decide, ?_, ?_⟩
  · have h := (debounce_burst_single_fire (0, ("n1", 10, 20))
      [(200, ("n2", 1, 2)), (400, ("n1", 30, 40))] 1000 (by decide)).1 (by decide)
    rw [h]
    decide
  · exact (debounce_burst_single_fire (0, ("n1", 10, 20))
      [(200, ("n2", 1, 2)), (400, ("n1", 30, 40))] 850 (by decide)).2 (by decide)

/-- Claim C8, counterexample: clicking the empty background does not clear the
selection — starting from a state with node "a" selected, the background-click
handler creates node "b" and selects it, so the selection is not none. -/
theorem background_click_selects_new_node :
    (graphViewStep sampleSelState (GraphViewEvent.backgroundClick sampleNodeB)).selectedItem
      = some ⟨SelKind.node, "b"⟩ ∧
    (graphViewStep sampleSelState (GraphViewEvent.backgroundClick sampleNodeB)).selectedItem
      ≠ none := by
  refine ⟨rfl, ?_⟩
  intro h
  simp [graphViewStep] at h

/-- Claim C8, amended: the selection is set by a click on a node or edge; a
click on the empty background creates a new node and selects it (it does not
clear the selection, and there is no Escape handler in the component sources);
the selection is cleared by confirming deletion of the selected item, by
deleting the selected edge from the context menu, and by closing the
properties panel; at most one item is selected at a time (the state is a
single optional item). -/
theorem selection_transitions (s : GraphViewState) (n : ForceGraphNode)
    (e : ForceGraphEdge) (sel : SelectedItem) (eid : String) :
    (graphViewStep s (GraphViewEvent.nodeClick n)).selectedItem
      = some ⟨SelKind.node, n.id⟩ ∧
    (graphViewStep s (GraphViewEvent.edgeClick e)).selectedItem
      = some ⟨SelKind.edge, e.id⟩ ∧
    (graphViewStep s (GraphViewEvent.backgroundClick n)).selectedItem
      = some ⟨SelKind.node, n.id⟩ ∧
    (graphViewStep { s with selectedItem := some sel }
        GraphViewEvent.deleteConfirm).selectedItem = none ∧
    (graphViewStep { s with selectedItem := some ⟨SelKind.edge, eid⟩ }
        (GraphViewEvent.deleteEdgeFromContext eid)).selectedItem = none ∧
    (graphViewStep { s with selectedItem := none } GraphViewEvent.deleteConfirm)
      = { s with selectedItem := none } ∧
    (graphViewStep s GraphViewEvent.closePanel).selectedItem = none := by
  refine ⟨rfl, rfl, rfl, ?_, ?_, rfl, rfl⟩
  · obtain ⟨k, iid⟩ := sel
    cases k <;> rfl
  · simp [graphViewStep]

/-- Claim C9: confirming deletion of the selected node a removes exactly node
a and every edge incident to a from the held graph data; every other node and
every edge not incident to a remains (the kept lists are sublists of the
originals, so order and multiplicity are untouched), and the selection is
cleared. -/
theorem delete_node_frame (g : ForceGraphData) (a : String) (panel : Bool) :
    (graphViewStep ⟨g, some ⟨SelKind.node, a⟩, panel⟩
        GraphViewEvent.deleteConfirm).selectedItem = none ∧
    (∀ n, n ∈ (graphViewStep ⟨g, some ⟨SelKind.node, a⟩, panel⟩
        GraphViewEvent.deleteConfirm).graphData.nodes ↔ (n ∈ g.nodes ∧ n.id ≠ a)) ∧
    (∀ l, l ∈ (graphViewStep ⟨g, some ⟨SelKind.node, a⟩, panel⟩
        GraphViewEvent.deleteConfirm).graphData.links ↔
      (l ∈ g.links ∧ l.source.id ≠ a ∧ l.target.id ≠ a)) ∧
    List.Sublist (graphViewStep ⟨g, some ⟨SelKind.node, a⟩, panel⟩
        GraphViewEvent.deleteConfirm).graphData.nodes g.nodes ∧
    List.Sublist (graphViewStep ⟨g, some ⟨SelKind.node, a⟩, panel⟩
        GraphViewEvent.deleteConfirm).graphData.links g.links := by
  refine ⟨rfl, ?_, ?_, List.filter_sublist _, List.filter_sublist _⟩
  · intro n
    show n ∈ g.nodes.filter (fun node => node.id != a) ↔ _
    rw [List.mem_filter]
    simp [bne_iff_ne]
  · intro l
    show l ∈ g.links.filter
        (fun link => link.source.id != a && link.target.id != a) ↔ _
    rw [List.mem_filter]
    simp [bne_iff_ne, and_assoc]
